import Mathlib

/-!
Verification of the kaleidoscope mirror-redirector against its specification.

The repository contains two near-duplicate variants of the same design:
`kaleidoscope.go` (the legacy variant: `getData`, `makeGlobalHandler`,
`makeCountryHandler`) and an unnamed newer variant (`getMirrorInfo`,
`redirector`, `globalSelector`, `countrySelector`, plus a `done` channel).
Both are embedded below.  Go `float64` score/completion fields are modelled
as `ℚ` (the program only compares them, never does float arithmetic); Go
slices become `List`, the `map[string][]*Mirror` country index becomes an
association list whose lookup semantics match Go map lookup.
-/

namespace Kaleidoscope

/-- One mirror record, as decoded from the upstream JSON
(`Mirror` struct in both Go variants). -/
structure Mirror where
  protocol : String
  url : String
  country : String
  lastSync : Option Int
  delay : Int
  score : ℚ
  completion : ℚ
  countryCode : String
  durStdDev : ℚ
  durAvg : ℚ
  deriving DecidableEq, Repr

/-- Global mirror-check status (`MirrorStatus` struct).  The newer variant
adds the `Countries` index (absent from the legacy variant, where the field
is simply left untouched). -/
structure MirrorStatus where
  cutoff : Int
  checkFrequency : Int
  numChecks : Int
  lastCheck : Int
  version : Int
  global : List Mirror
  countries : List (String × List Mirror)
  deriving DecidableEq, Repr

/-- The comparison used by `sort.Stable(sort.Reverse(ByScore(m.Global)))`:
`ByScore.Less(i,j)` is `s[i].Score < s[j].Score`, `sort.Reverse` swaps the
arguments, so element `a` may precede `b` exactly when `¬ (a.Score < b.Score)`
after the reversal, i.e. `b.Score ≤ a.Score` (descending, highest score
first). -/
def byScoreRevLE (a b : Mirror) : Bool :=
  decide (b.score ≤ a.score)

/-- The retention test of the filter loop shared by `getData` and
`getMirrorInfo`: a mirror is kept iff `Protocol == "http"` and
`Completion >= c.minCompletion`. -/
def retained (minCompletion : ℚ) (m : Mirror) : Bool :=
  m.protocol == "http" && decide (minCompletion ≤ m.completion)

/-- Go-map update `m.Countries[code] = append(country, mirror)` preceded by
`country, ok := m.Countries[code]; if !ok { country = make([]*Mirror, 0) }`,
on the association-list model of the map: append `m` to the bucket of `code`,
creating the bucket if absent.  (Go maps are unordered; the list order here
is insertion order, which no lookup can observe.) -/
def appendCountry (cs : List (String × List Mirror)) (code : String)
    (m : Mirror) : List (String × List Mirror) :=
  match cs with
  | [] => [(code, [m])]
  | (k, v) :: rest =>
    if k = code then (k, v ++ [m]) :: rest
    else (k, v) :: appendCountry rest code m

/-- Go-map lookup `status.Countries[code]` (with its `ok` flag) on the
association-list model. -/
def findBucket (code : String) : List (String × List Mirror) → Option (List Mirror)
  | [] => none
  | (k, v) :: rest => if k = code then some v else findBucket code rest

/-- One step of the filter loop of `getMirrorInfo`: a retained mirror is
appended to the new global list and to its country bucket; any other mirror
is dropped. -/
def filterStep (minCompletion : ℚ)
    (acc : List Mirror × List (String × List Mirror)) (m : Mirror) :
    List Mirror × List (String × List Mirror) :=
  if retained minCompletion m then
    (acc.1 ++ [m], appendCountry acc.2 m.countryCode m)
  else acc

/-- The pure body of `getMirrorInfo` (newer variant), applied to the decoded
upstream payload: stable-sort `m.Global` by descending score, then run the
filter loop, producing the new global list and the country index. -/
def getMirrorInfoCore (minCompletion : ℚ) (s : MirrorStatus) : MirrorStatus :=
  let sorted := s.global.mergeSort byScoreRevLE
  let acc := sorted.foldl (filterStep minCompletion) ([], [])
  { s with global := acc.1, countries := acc.2 }

/-- Fetch/decode failures of the builder (`http.Get` error, JSON decode
error). -/
inductive FetchErr
  | transport
  | decode
  deriving DecidableEq, Repr

/-- `getMirrorInfo` as a whole: a transport or decode failure is returned
as-is; on success the pure pipeline runs on the decoded payload. -/
def getMirrorInfo (minCompletion : ℚ)
    (fetched : Except FetchErr MirrorStatus) : Except FetchErr MirrorStatus :=
  match fetched with
  | .error e => .error e
  | .ok m => .ok (getMirrorInfoCore minCompletion m)

/-- The pure body of `getData` (legacy variant): same filter loop, but no
sort and no country index (the legacy struct has no `Countries` field, so it
is left unchanged here). -/
def getDataCore (minCompletion : ℚ) (s : MirrorStatus) : MirrorStatus :=
  { s with
    global := s.global.foldl
      (fun acc m => if retained minCompletion m then acc ++ [m] else acc) [] }

/-- `'a' ≤ c ≤ 'z'`, the character class `[a-z]` of the newer variant's
pattern. -/
def isLowerAlpha (c : Char) : Bool :=
  'a' ≤ c && c ≤ 'z'

/-- The character class `[A-Za-z]` of the legacy variant's pattern. -/
def isAlpha (c : Char) : Bool :=
  ('a' ≤ c && c ≤ 'z') || ('A' ≤ c && c ≤ 'Z')

/-- The anchored pattern match of `countrySelector` (newer variant):
`re.FindStringSubmatch` for `^/([a-z]{2})(?:/|$)` on the request path.
On a match it returns the captured two-letter code together with the path
with the full match `res[0]` stripped
(`r.URL.Path = r.URL.Path[len(res[0]):]`): stripping `"/xx"` leaves `""`,
stripping `"/xx/"` leaves the remainder after that slash. -/
def countryMatch (p : List Char) : Option (List Char × List Char) :=
  match p with
  | c0 :: a :: b :: rest =>
    if c0 = '/' ∧ isLowerAlpha a ∧ isLowerAlpha b then
      match rest with
      | [] => some ([a, b], [])
      | c3 :: rest' => if c3 = '/' then some ([a, b], rest') else none
    else none
  | _ => none

/-- The pattern match of the legacy `makeCountryHandler`:
`re.FindStringSubmatch` for `/([A-Za-z]{2})$`, i.e. the path ends in a slash
followed by two letters of either case; returns the captured group. -/
def countryMatchOld (p : List Char) : Option (List Char) :=
  match p.reverse with
  | b :: a :: '/' :: _ => if isAlpha a && isAlpha b then some [a, b] else none
  | _ => none

/-- Typed selection failures of the newer variant
(`fmt.Errorf("invalid country code %+v", res)` and
`errors.New("country not found")`). -/
inductive SelErr
  | invalidCountryCode
  | countryNotFound
  deriving DecidableEq, Repr

/-- The error text a selection failure carries to `http.Error`. -/
def SelErr.message : SelErr → String
  | .invalidCountryCode => "invalid country code"
  | .countryNotFound => "country not found"

/-- Outcome of a selector call: a mirror plus the (possibly prefix-stripped)
request path, a typed error, or a Go runtime panic (indexing `country[0]` or
`status.Global[0]` on an empty slice). -/
inductive SelResult
  | ok (m : Mirror) (rest : List Char)
  | err (e : SelErr)
  | crash
  deriving DecidableEq, Repr

/-- `globalSelector` (newer variant): `return status.Global[0], nil`;
indexing an empty slice panics. -/
def globalSelector (status : MirrorStatus) (path : List Char) : SelResult :=
  match status.global with
  | [] => .crash
  | m :: _ => .ok m path

/-- `countrySelector` (newer variant): match the path against
`^/([a-z]{2})(?:/|$)`; no match is an invalid-country-code error; otherwise
look up `strings.ToUpper(res[1])` in `status.Countries` (absent key is a
country-not-found error) and return `country[0]` with the matched prefix
stripped from the path.  `country[0]` on an empty bucket would panic. -/
def countrySelector (status : MirrorStatus) (path : List Char) : SelResult :=
  match countryMatch path with
  | none => .err .invalidCountryCode
  | some (code, rest) =>
    match findBucket (code.map Char.toUpper).asString status.countries with
    | none => .err .countryNotFound
    | some [] => .crash
    | some (m :: _) => .ok m rest

/-- A parsed absolute URL, as produced by `url.Parse` on the mirror base
URLs this program handles (`scheme://host` optionally followed by an
absolute path). -/
structure GoURL where
  scheme : List Char
  host : List Char
  path : List Char
  deriving DecidableEq, Repr

/-- Split a character list at the first occurrence of `stop`, returning the
part strictly before it and the part from `stop` on (all of the input and
`[]` when `stop` does not occur). -/
def takeUntil (stop : Char) : List Char → List Char × List Char
  | [] => ([], [])
  | c :: cs =>
    if c = stop then ([], c :: cs)
    else
      let (a, b) := takeUntil stop cs
      (c :: a, b)

/-- Models `url.Parse` for the absolute hierarchical URLs stored in mirror
records: a nonempty scheme, `"://"`, a host up to the next slash, and the
remaining absolute path (empty when the URL has no path).  Other shapes are
rejected; only this shape is exercised by the program's data. -/
def parseURL (s : List Char) : Option GoURL :=
  let (scheme, rest) := takeUntil ':' s
  match rest with
  | ':' :: '/' :: '/' :: rest' =>
    let (host, path) := takeUntil '/' rest'
    if scheme = [] then none else some ⟨scheme, host, path⟩
  | _ => none

/-- `url.String()` for the URLs of `parseURL`. -/
def urlString (u : GoURL) : List Char :=
  u.scheme ++ "://".data ++ u.host ++ u.path

/-- The segment loop of Go `path.Clean`: drop empty and `"."` segments; a
`".."` segment pops the previous segment, except that at the root it is
dropped and in a relative path with nothing left to pop it is kept. -/
def cleanSegs (rooted : Bool) : List (List Char) → List (List Char) → List (List Char)
  | [], acc => acc.reverse
  | seg :: rest, acc =>
    if seg = [] || seg = ['.'] then cleanSegs rooted rest acc
    else if seg = ['.', '.'] then
      match acc with
      | [] =>
        if rooted then cleanSegs rooted rest []
        else cleanSegs rooted rest [['.', '.']]
      | top :: acc' =>
        if top = ['.', '.'] then cleanSegs rooted rest (seg :: acc)
        else cleanSegs rooted rest acc'
    else cleanSegs rooted rest (seg :: acc)

/-- Go `path.Clean`: lexically simplify a slash-separated path (collapse
multiple slashes, drop `"."`, resolve `".."`, drop a trailing slash); the
empty result is `"."`. -/
def pathClean (p : List Char) : List Char :=
  let rooted := p.head? = some '/'
  let segs := cleanSegs rooted (p.splitOn '/') []
  let out := (if rooted then ['/'] else []) ++ List.intercalate ['/'] segs
  if out = [] then ['.'] else out

/-- Go `path.Join` on two elements, as used by
`url.Path = path.Join(url.Path, r.URL.Path)`: empty elements are skipped and
the slash-joined result is cleaned; joining two empty paths gives the empty
path. -/
def pathJoin (a b : List Char) : List Char :=
  match a, b with
  | [], [] => []
  | [], b => pathClean b
  | a, [] => pathClean a
  | a, b => pathClean (a ++ '/' :: b)

/-- The response a handler run produces. -/
inductive HttpOut
  | methodNotAllowed
  | serverError
  | notFound (msg : String)
  | redirect (code : Nat) (location : String)
  | crash
  deriving DecidableEq, Repr

/-- `redirector` (newer variant).  The snapshot store (`atomic.Value`) holds
`none` before the first `Store`; `val.Load().(*MirrorStatus)` on it is a
failed type assertion on a nil interface, i.e. a panic.  Otherwise: non-GET
is 405; an empty global list is 500 (followed by `return`); a selector error
is a 404 carrying the error text; an unparsable mirror URL is 500; otherwise
the mirror URL's path is `path.Join`ed with the remaining request path and a
302 redirect to the composed URL is issued. -/
def redirector (sel : MirrorStatus → List Char → SelResult)
    (store : Option MirrorStatus) (method : String) (path : List Char) : HttpOut :=
  if method ≠ "GET" then .methodNotAllowed
  else
    match store with
    | none => .crash
    | some c =>
      if c.global.length = 0 then .serverError
      else
        match sel c path with
        | .crash => .crash
        | .err e => .notFound e.message
        | .ok mirror rest =>
          match parseURL mirror.url.data with
          | none => .serverError
          | some u => .redirect 302 (urlString { u with path := pathJoin u.path rest }).asString

/-- `http.StripPrefix(pre, h)`: run `h` on the path with `pre` removed, or
respond 404 when the path does not start with `pre`. -/
def stripPrefixRoute (pre : List Char) (h : List Char → HttpOut)
    (path : List Char) : HttpOut :=
  if pre.isPrefixOf path then h (path.drop pre.length)
  else .notFound "404 page not found"

/-- One output action of the legacy `makeGlobalHandler` body. -/
inductive Act
  | httpError (code : Nat)
  | redirect (code : Nat) (location : String)
  | crash
  deriving DecidableEq, Repr

/-- The legacy `makeGlobalHandler` body as the sequence of actions it
performs on a GET request.  Note the source has no `return` after the
empty-list `http.Error(w, ..., 500)`, so execution continues into
`rand.Intn(len(status.URLs))`, which panics for length 0.  `pick` models the
random draw; on a nonempty list the mirror at index `pick % length` is
redirected to. -/
def makeGlobalHandler (status : MirrorStatus) (pick : Nat) : List Act :=
  (if status.global.length = 0 then [Act.httpError 500] else [])
    ++ match status.global with
       | [] => [Act.crash]
       | m :: rest =>
         [Act.redirect 302 (((m :: rest).getD (pick % (m :: rest).length) m).url)]

/-- One observable event of an iteration of the `update` loop body (both
variants have the identical loop). -/
inductive LoopEvent
  | fetchAttempt
  | storeSnapshot
  | waitTick
  deriving DecidableEq, Repr

/-- The events of one iteration of the `update` loop, as a function of that
iteration's fetch outcome: the fetch always runs; on error the body logs and
executes `continue`, which jumps straight to the next iteration and skips
both the `Store` and the `<-ticker.C` wait; on success the new status is
stored and the loop then blocks on the ticker. -/
def updateIterEvents (fetched : Except FetchErr MirrorStatus) : List LoopEvent :=
  LoopEvent.fetchAttempt ::
    match fetched with
    | .error _ => []
    | .ok _ => [LoopEvent.storeSnapshot, LoopEvent.waitTick]

/-- Effect of one loop iteration on the snapshot store (`atomic.Value`,
modelled as `Option MirrorStatus`, `none` before the first `Store`): a
failed fetch stores nothing, a successful one stores the new status. -/
def storeStep (store : Option MirrorStatus)
    (fetched : Except FetchErr MirrorStatus) : Option MirrorStatus :=
  match fetched with
  | .error _ => store
  | .ok m => some m

/-- The store contents after the `update` loop has run the given sequence of
fetch outcomes, starting from the unpublished state. -/
def runStore (fs : List (Except FetchErr MirrorStatus)) : Option MirrorStatus :=
  fs.foldl storeStep none

/-- Effect of one loop iteration on the one-shot `done` signal of the newer
variant: `once.Do` fires it on the first successful iteration (after the
`Store`), and failed iterations leave it alone. -/
def doneStep (d : Bool) (fetched : Except FetchErr MirrorStatus) : Bool :=
  match fetched with
  | .error _ => d
  | .ok _ => true

/-- Whether `done` has fired after the given sequence of fetch outcomes. -/
def runDone (fs : List (Except FetchErr MirrorStatus)) : Bool :=
  fs.foldl doneStep false

/-! ## Basic facts about the embedded operations -/

theorem byScoreRevLE_trans :
    ∀ a b c : Mirror, byScoreRevLE a b → byScoreRevLE b c → byScoreRevLE a c := by
  intro a b c hab hbc
  simp only [byScoreRevLE, decide_eq_true_eq] at *
  exact le_trans hbc hab

theorem byScoreRevLE_total : ∀ a b : Mirror, byScoreRevLE a b || byScoreRevLE b a := by
  intro a b
  simp only [byScoreRevLE, Bool.or_eq_true, decide_eq_true_eq]
  exact le_total b.score a.score

theorem foldl_filterStep_fst (c : ℚ) (l : List Mirror) (g : List Mirror)
    (cs : List (String × List Mirror)) :
    (l.foldl (filterStep c) (g, cs)).1 = g ++ l.filter (retained c) := by
  induction l generalizing g cs with
  | nil => simp
  | cons m l ih =>
    simp only [List.foldl_cons, filterStep]
    by_cases hm : retained c m
    · rw [if_pos hm, ih, List.filter_cons_of_pos hm]
      simp
    · rw [if_neg hm, ih, List.filter_cons_of_neg hm]

theorem findBucket_appendCountry_self (cs : List (String × List Mirror))
    (code : String) (m : Mirror) :
    findBucket code (appendCountry cs code m)
      = some ((findBucket code cs).getD [] ++ [m]) := by
  induction cs with
  | nil => simp [appendCountry, findBucket]
  | cons kv rest ih =>
    obtain ⟨k, v⟩ := kv
    by_cases hk : k = code
    · simp [appendCountry, findBucket, hk]
    · simp [appendCountry, findBucket, hk, ih]

theorem findBucket_appendCountry_ne (cs : List (String × List Mirror))
    (code code' : String) (m : Mirror) (h : code' ≠ code) :
    findBucket code' (appendCountry cs code m) = findBucket code' cs := by
  have h' : ¬ (code = code') := fun hh => h hh.symm
  induction cs with
  | nil => simp [appendCountry, findBucket, h']
  | cons kv rest ih =>
    obtain ⟨k, v⟩ := kv
    by_cases hk : k = code
    · subst hk
      simp [appendCountry, findBucket, h']
    · simp only [appendCountry, if_neg hk, findBucket]
      by_cases hk2 : k = code'
      · simp [hk2]
      · simp [hk2, ih]

/-- The invariant of the filter loop: each country bucket holds exactly the
already-retained mirrors of that country, in retention order, and buckets
exist exactly for countries with at least one retained mirror. -/
def bucketSpec (g : List Mirror) (cs : List (String × List Mirror)) : Prop :=
  ∀ code : String,
    findBucket code cs =
      (if g.filter (fun m => m.countryCode == code) = [] then none
       else some (g.filter (fun m => m.countryCode == code)))

theorem foldl_filterStep_inv (c : ℚ) (l : List Mirror) (g : List Mirror)
    (cs : List (String × List Mirror)) (h : bucketSpec g cs) :
    bucketSpec (g ++ l.filter (retained c)) (l.foldl (filterStep c) (g, cs)).2 := by
  induction l generalizing g cs with
  | nil => simpa using h
  | cons m l ih =>
    simp only [List.foldl_cons, filterStep]
    by_cases hm : retained c m
    · rw [if_pos hm]
      have h' : bucketSpec (g ++ [m]) (appendCountry cs m.countryCode m) := by
        intro code
        by_cases hc : m.countryCode = code
        · subst hc
          rw [findBucket_appendCountry_self]
          have hfil : (g ++ [m]).filter (fun x => x.countryCode == m.countryCode)
              = g.filter (fun x => x.countryCode == m.countryCode) ++ [m] := by
            simp [List.filter_append]
          rw [hfil, h m.countryCode]
          by_cases hg : g.filter (fun x => x.countryCode == m.countryCode) = []
          · rw [if_pos hg, hg]
            simp
          · rw [if_neg hg, if_neg (by simp)]
            simp
        · rw [findBucket_appendCountry_ne _ _ _ _ (fun hh => hc hh.symm)]
          have hfil : (g ++ [m]).filter (fun x => x.countryCode == code)
              = g.filter (fun x => x.countryCode == code) := by
            simp [List.filter_append, hc]
          rw [hfil]
          exact h code
      have hrec := ih (g ++ [m]) (appendCountry cs m.countryCode m) h'
      rw [List.filter_cons_of_pos hm, List.append_cons]
      exact hrec
    · rw [if_neg hm, List.filter_cons_of_neg hm]
      exact ih g cs h

theorem getMirrorInfoCore_global (c : ℚ) (s : MirrorStatus) :
    (getMirrorInfoCore c s).global
      = (s.global.mergeSort byScoreRevLE).filter (retained c) := by
  simpa [getMirrorInfoCore] using
    foldl_filterStep_fst c (s.global.mergeSort byScoreRevLE) [] []

theorem getMirrorInfoCore_countries (c : ℚ) (s : MirrorStatus) (code : String) :
    findBucket code (getMirrorInfoCore c s).countries =
      (if (getMirrorInfoCore c s).global.filter (fun m => m.countryCode == code) = []
       then none
       else some ((getMirrorInfoCore c s).global.filter (fun m => m.countryCode == code))) := by
  have h0 : bucketSpec [] [] := by
    intro code
    simp [findBucket]
  have h := foldl_filterStep_inv c (s.global.mergeSort byScoreRevLE) [] [] h0
  simp only [List.nil_append] at h
  have hcs : (getMirrorInfoCore c s).countries
      = ((s.global.mergeSort byScoreRevLE).foldl (filterStep c) ([], [])).2 := rfl
  rw [hcs, getMirrorInfoCore_global]
  exact h code

theorem getDataCore_global (c : ℚ) (s : MirrorStatus) :
    (getDataCore c s).global = s.global.filter (retained c) := by
  have key : ∀ (l : List Mirror) (acc : List Mirror),
      l.foldl (fun acc m => if retained c m then acc ++ [m] else acc) acc
        = acc ++ l.filter (retained c) := by
    intro l
    induction l with
    | nil => simp
    | cons m l ih =>
      intro acc
      by_cases hm : retained c m
      · simp only [List.foldl_cons]
        rw [if_pos hm, ih, List.filter_cons_of_pos hm]
        simp
      · simp only [List.foldl_cons]
        rw [if_neg hm, ih, List.filter_cons_of_neg hm]
  simpa [getDataCore] using key s.global []

/-- Stability of the embedded sort: a class of pairwise `le`-equivalent
elements (here: equal-score mirrors) keeps its original relative order
through `mergeSort`. -/
theorem filter_mergeSort_of_equiv {α : Type} (le : α → α → Bool)
    (htrans : ∀ a b c : α, le a b → le b c → le a c)
    (htotal : ∀ a b : α, le a b || le b a)
    (p : α → Bool) (hp : ∀ a b, p a → p b → le a b) (L : List α) :
    (L.mergeSort le).filter p = L.filter p := by
  have hpair : (L.filter p).Pairwise (fun a b => le a b) := by
    apply List.pairwise_of_forall_mem_list
    intro a ha b hb
    exact hp a b (List.mem_filter.mp ha).2 (List.mem_filter.mp hb).2
  have hsub : List.Sublist (L.filter p) (L.mergeSort le) :=
    List.sublist_mergeSort htrans htotal hpair (List.filter_sublist L)
  have hsub2 : List.Sublist (L.filter p) ((L.mergeSort le).filter p) := by
    have h2 := hsub.filter p
    have hee : (L.filter p).filter p = L.filter p := by
      simp [List.filter_filter]
    rwa [hee] at h2
  have hlen : ((L.mergeSort le).filter p).length = (L.filter p).length :=
    ((List.mergeSort_perm L le).filter p).length_eq
  exact (hsub2.eq_of_length hlen.symm).symm

theorem getMirrorInfoCore_sorted (c : ℚ) (s : MirrorStatus) :
    (getMirrorInfoCore c s).global.Pairwise (fun a b => b.score ≤ a.score) := by
  rw [getMirrorInfoCore_global]
  have h := List.sorted_mergeSort byScoreRevLE_trans byScoreRevLE_total s.global
  exact (List.Pairwise.sublist (List.filter_sublist _) h).imp
    (by intro a b hab; simpa [byScoreRevLE] using hab)

/-! ## Concrete fixtures

A small upstream payload exercising every filter outcome: an HTTPS-only
mirror, an incomplete mirror, and three retained mirrors among which two tie
on score. -/

/-- Retained US mirror (score 5, tied with `mirrorUS2`, listed first). -/
def mirrorUS1 : Mirror :=
  { protocol := "http", url := "https://mirror.example/archlinux/",
    country := "United States", lastSync := none, delay := 0, score := 5,
    completion := 1, countryCode := "US", durStdDev := 0, durAvg := 0 }

/-- HTTPS mirror, dropped by the protocol test despite the best score. -/
def mirrorUS0 : Mirror :=
  { protocol := "https", url := "https://ssl.example/arch/",
    country := "United States", lastSync := none, delay := 0, score := 20,
    completion := 1, countryCode := "US", durStdDev := 0, durAvg := 0 }

/-- Incomplete mirror, dropped by the completion test. -/
def mirrorDE0 : Mirror :=
  { protocol := "http", url := "http://incomplete.example/arch/",
    country := "Germany", lastSync := none, delay := 0, score := 7,
    completion := 0, countryCode := "DE", durStdDev := 0, durAvg := 0 }

/-- Retained US mirror (score 5, tied with `mirrorUS1`, listed after it). -/
def mirrorUS2 : Mirror :=
  { protocol := "http", url := "http://us2.example/arch/",
    country := "United States", lastSync := none, delay := 0, score := 5,
    completion := 1, countryCode := "US", durStdDev := 0, durAvg := 0 }

/-- Retained DE mirror (score 9, the best retained mirror). -/
def mirrorDE1 : Mirror :=
  { protocol := "http", url := "http://de.example/arch/",
    country := "Germany", lastSync := none, delay := 0, score := 9,
    completion := 1, countryCode := "DE", durStdDev := 0, durAvg := 0 }

/-- A decoded upstream payload. -/
def demoPayload : MirrorStatus :=
  { cutoff := 86400, checkFrequency := 3600, numChecks := 10, lastCheck := 0,
    version := 3,
    global := [mirrorUS0, mirrorUS1, mirrorDE0, mirrorUS2, mirrorDE1],
    countries := [] }

/-- The snapshot the builder produces from `demoPayload` at threshold 1. -/
def demoBuilt : MirrorStatus :=
  { demoPayload with
    global := [mirrorDE1, mirrorUS1, mirrorUS2],
    countries := [("DE", [mirrorDE1]), ("US", [mirrorUS1, mirrorUS2])] }

theorem demoBuild_eq : getMirrorInfoCore 1 demoPayload = demoBuilt := by
  norm_num [getMirrorInfoCore, List.mergeSort, List.merge, byScoreRevLE, retained,
    filterStep, appendCountry, mirrorUS0, mirrorUS1, mirrorUS2, mirrorDE0, mirrorDE1,
    demoPayload, demoBuilt]
  decide

/-- An empty (unready/degraded) snapshot. -/
def emptyStatus : MirrorStatus :=
  { cutoff := 0, checkFrequency := 0, numChecks := 0, lastCheck := 0, version := 0,
    global := [], countries := [] }

/-- A snapshot with a single US mirror at `https://mirror.example/archlinux/`. -/
def demoUSStatus : MirrorStatus :=
  { cutoff := 0, checkFrequency := 0, numChecks := 0, lastCheck := 0, version := 0,
    global := [mirrorUS1], countries := [("US", [mirrorUS1])] }

/-! ## Claims about the snapshot builder -/

/-- C1: for every upstream payload, the built snapshot's global list contains
exactly the input records with protocol `"http"` and completion at least the
configured threshold — every retained record satisfies both conditions, the
retained records are (as a multiset) exactly the qualifying input records,
no qualifying input record is dropped — and the legacy `getData` filter
produces exactly the qualifying records in input order. -/
theorem C1_globalList_filter_exact (s : MirrorStatus) (c : ℚ) :
    (∀ m ∈ (getMirrorInfoCore c s).global, m.protocol = "http" ∧ c ≤ m.completion)
    ∧ (getMirrorInfoCore c s).global.Perm (s.global.filter (retained c))
    ∧ (∀ m ∈ s.global, m.protocol = "http" → c ≤ m.completion →
        m ∈ (getMirrorInfoCore c s).global)
    ∧ (getDataCore c s).global = s.global.filter (retained c) := by
  refine ⟨?_, ?_, ?_, getDataCore_global c s⟩
  · intro m hm
    rw [getMirrorInfoCore_global] at hm
    have hr := (List.mem_filter.mp hm).2
    simp only [retained, Bool.and_eq_true, beq_iff_eq, decide_eq_true_eq] at hr
    exact hr
  · rw [getMirrorInfoCore_global]
    exact (List.mergeSort_perm s.global byScoreRevLE).filter _
  · intro m hm hp hc
    rw [getMirrorInfoCore_global]
    refine List.mem_filter.mpr ⟨List.mem_mergeSort.mpr hm, ?_⟩
    simp [retained, hp, hc]

/-- Witness for C1 at the concrete payload: a qualifying record is retained. -/
theorem C1_globalList_filter_exact_witness :
    mirrorUS1 ∈ (getMirrorInfoCore 1 demoPayload).global :=
  (C1_globalList_filter_exact demoPayload 1).2.2.1 mirrorUS1 (by decide) (by decide)
    (by decide)

/-- C2: in every built snapshot, the bucket of a country code holds exactly
the members of the global list with that country code, in the same relative
order, and a record is in some country bucket exactly when it is in the
global list. -/
theorem C2_countryIndex_exact (s : MirrorStatus) (c : ℚ) (code : String) :
    (findBucket code (getMirrorInfoCore c s).countries).getD []
      = (getMirrorInfoCore c s).global.filter (fun m => m.countryCode == code)
    ∧ (∀ m : Mirror,
        (∃ cd bucket, findBucket cd (getMirrorInfoCore c s).countries = some bucket
            ∧ m ∈ bucket)
          ↔ m ∈ (getMirrorInfoCore c s).global) := by
  constructor
  · rw [getMirrorInfoCore_countries]
    by_cases hg :
        (getMirrorInfoCore c s).global.filter (fun m => m.countryCode == code) = []
    · rw [if_pos hg, hg]
      rfl
    · rw [if_neg hg]
      rfl
  · intro m
    constructor
    · rintro ⟨cd, bucket, hb, hm⟩
      rw [getMirrorInfoCore_countries] at hb
      by_cases hg :
          (getMirrorInfoCore c s).global.filter (fun x => x.countryCode == cd) = []
      · rw [if_pos hg] at hb
        exact absurd hb (by simp)
      · rw [if_neg hg] at hb
        have hbe := Option.some.inj hb
        rw [← hbe] at hm
        exact (List.mem_filter.mp hm).1
    · intro hm
      have hmem : m ∈ (getMirrorInfoCore c s).global.filter
          (fun x => x.countryCode == m.countryCode) :=
        List.mem_filter.mpr ⟨hm, by simp⟩
      have hne : (getMirrorInfoCore c s).global.filter
          (fun x => x.countryCode == m.countryCode) ≠ [] := by
        intro hempty
        rw [hempty] at hmem
        exact absurd hmem (List.not_mem_nil m)
      refine ⟨m.countryCode,
        (getMirrorInfoCore c s).global.filter (fun x => x.countryCode == m.countryCode),
        ?_, hmem⟩
      rw [getMirrorInfoCore_countries, if_neg hne]

/-- Witness for C2 at the concrete payload and country code `"US"`. -/
theorem C2_countryIndex_exact_witness :
    (findBucket "US" (getMirrorInfoCore 1 demoPayload).countries).getD []
      = (getMirrorInfoCore 1 demoPayload).global.filter (fun m => m.countryCode == "US") :=
  (C2_countryIndex_exact demoPayload 1 "US").1

/-- C7: the builder stable-sorts by score best-first (here: descending, ties
keep upstream order) before filtering — the built global list is pairwise
ordered by descending score, and for every score value the retained records
of that score appear in exactly their upstream relative order. -/
theorem C7_sorted_stable (s : MirrorStatus) (c : ℚ) :
    (getMirrorInfoCore c s).global.Pairwise (fun a b => b.score ≤ a.score)
    ∧ (∀ q : ℚ, (getMirrorInfoCore c s).global.filter (fun m => m.score == q)
        = (s.global.filter (retained c)).filter (fun m => m.score == q)) := by
  refine ⟨getMirrorInfoCore_sorted c s, ?_⟩
  intro q
  rw [getMirrorInfoCore_global, List.filter_filter, List.filter_filter]
  exact filter_mergeSort_of_equiv byScoreRevLE byScoreRevLE_trans byScoreRevLE_total
    (fun a => (a.score == q) && retained c a)
    (by
      intro a b ha hb
      simp only [Bool.and_eq_true, beq_iff_eq] at ha hb
      simp [byScoreRevLE, ha.1, hb.1])
    s.global

/-- Witness for C7 at the concrete payload: the two score-5 mirrors keep
their upstream relative order. -/
theorem C7_sorted_stable_witness :
    (getMirrorInfoCore 1 demoPayload).global.filter (fun m => m.score == (5 : ℚ))
      = (demoPayload.global.filter (retained 1)).filter (fun m => m.score == (5 : ℚ)) :=
  (C7_sorted_stable demoPayload 1).2 5

/-- C10: in every built snapshot, every country code present as a key maps
to a nonempty bucket, so the country selector's `country[0]` after a
successful lookup never indexes an empty list (the selector never reaches
its panic outcome on a built snapshot). -/
theorem C10_buckets_nonempty (s : MirrorStatus) (c : ℚ) (code : String)
    (bucket : List Mirror)
    (h : findBucket code (getMirrorInfoCore c s).countries = some bucket) :
    bucket ≠ []
    ∧ ∀ p, countrySelector (getMirrorInfoCore c s) p ≠ SelResult.crash := by
  have hkey : ∀ cd bk, findBucket cd (getMirrorInfoCore c s).countries = some bk →
      bk ≠ [] := by
    intro cd bk hb
    rw [getMirrorInfoCore_countries] at hb
    by_cases hg :
        (getMirrorInfoCore c s).global.filter (fun m => m.countryCode == cd) = []
    · rw [if_pos hg] at hb
      exact absurd hb (by simp)
    · rw [if_neg hg] at hb
      rw [← Option.some.inj hb]
      exact hg
  refine ⟨hkey code bucket h, ?_⟩
  intro p
  cases hcm : countryMatch p with
  | none => simp [countrySelector, hcm]
  | some pr =>
    obtain ⟨code2, rest⟩ := pr
    cases hfb : findBucket (code2.map Char.toUpper).asString
        (getMirrorInfoCore c s).countries with
    | none => simp [countrySelector, hcm, hfb]
    | some bucket2 =>
      cases bucket2 with
      | nil => exact absurd rfl (hkey _ _ hfb)
      | cons m ms => simp [countrySelector, hcm, hfb]

/-- Witness for C10 at the concrete payload: the `"US"` bucket is nonempty
and the selector does not panic on a request for it. -/
theorem C10_buckets_nonempty_witness :
    ([mirrorUS1, mirrorUS2] : List Mirror) ≠ []
    ∧ countrySelector (getMirrorInfoCore 1 demoPayload) "/us".data ≠ SelResult.crash := by
  have h := C10_buckets_nonempty demoPayload 1 "US" [mirrorUS1, mirrorUS2]
    (by rw [demoBuild_eq]; decide)
  exact ⟨h.1, h.2 "/us".data⟩

/-! ## Claims about the handlers and the refresh loop -/

/-- C3 (a code bug in the legacy variant): on a GET of the global route with
an empty snapshot, the legacy `makeGlobalHandler` writes the 500 but — the
source has no `return` there — continues into `rand.Intn(0)`, which panics;
the newer variant's `redirector` stops after the 500 exactly as the claim
states. -/
theorem C3_empty_snapshot_500_behavior :
    makeGlobalHandler emptyStatus 0 = [Act.httpError 500, Act.crash]
    ∧ ∀ p, redirector globalSelector (some emptyStatus) "GET" p = HttpOut.serverError := by
  refine ⟨by decide, ?_⟩
  intro p
  rfl

/-- C4 counterexample: with a snapshot holding a US bucket, the newer
variant's country selector accepts `/us` but rejects `/US` with
`InvalidCountryCode` — the two paths do not both match, refuting
case-insensitivity of the selector's pattern. -/
theorem C4_uppercase_path_rejected :
    countrySelector demoUSStatus "/US".data = SelResult.err SelErr.invalidCountryCode
    ∧ countrySelector demoUSStatus "/us".data = SelResult.ok mirrorUS1 [] := by
  exact ⟨by decide, by decide⟩

/-- C4 amended: the newer variant's country selector matches exactly a
2-letter lowercase code at the start of the path (followed by a slash or the
end), normalizes the matched code to uppercase for the bucket lookup, and on
a non-matching path fails with `InvalidCountryCode`, surfaced by the
redirector as a 404; only the legacy variant's end-of-path pattern accepts
both letter cases. -/
theorem C4_country_code_parsing_amended :
    (∀ p : List Char, (countryMatch p).isSome ↔
      ∃ a b r, p = '/' :: a :: b :: r ∧ isLowerAlpha a ∧ isLowerAlpha b
        ∧ (r = [] ∨ ∃ r', r = '/' :: r'))
    ∧ (∀ status p, countryMatch p = none →
        countrySelector status p = SelResult.err SelErr.invalidCountryCode)
    ∧ (∀ status p code rest, countryMatch p = some (code, rest) →
        countrySelector status p =
          match findBucket (code.map Char.toUpper).asString status.countries with
          | none => SelResult.err SelErr.countryNotFound
          | some [] => SelResult.crash
          | some (m :: _) => SelResult.ok m rest)
    ∧ (∀ status p, status.global ≠ [] → countryMatch p = none →
        redirector countrySelector (some status) "GET" p
          = HttpOut.notFound SelErr.invalidCountryCode.message)
    ∧ (countryMatchOld "/US".data).isSome ∧ (countryMatchOld "/us".data).isSome := by
  refine ⟨?_, ?_, ?_, ?_, by decide, by decide⟩
  · intro p
    constructor
    · intro hs
      rcases p with _ | ⟨c0, _ | ⟨a, _ | ⟨b, rest⟩⟩⟩
      · simp [countryMatch] at hs
      · simp [countryMatch] at hs
      · simp [countryMatch] at hs
      · by_cases hcond : c0 = '/' ∧ isLowerAlpha a ∧ isLowerAlpha b
        · obtain ⟨h0, ha, hb⟩ := hcond
          subst h0
          refine ⟨a, b, rest, rfl, ha, hb, ?_⟩
          cases rest with
          | nil => exact Or.inl rfl
          | cons c3 rest' =>
            by_cases h3 : c3 = '/'
            · subst h3
              exact Or.inr ⟨rest', rfl⟩
            · exfalso
              have hred : countryMatch ('/' :: a :: b :: c3 :: rest') = none := by
                simp only [countryMatch, if_neg h3]
                simp
              rw [hred] at hs
              simp at hs
        · have hred : countryMatch (c0 :: a :: b :: rest) = none := by
            simp only [countryMatch, if_neg hcond]
          rw [hred] at hs
          simp at hs
    · rintro ⟨a, b, r, rfl, ha, hb, hr⟩
      rcases hr with rfl | ⟨r', rfl⟩
      · simp [countryMatch, ha, hb]
      · simp [countryMatch, ha, hb]
  · intro status p hcm
    simp [countrySelector, hcm]
  · intro status p code rest hcm
    simp [countrySelector, hcm]
  · intro status p hg hcm
    have hsel : countrySelector status p = SelResult.err SelErr.invalidCountryCode := by
      simp [countrySelector, hcm]
    have hlen : status.global.length ≠ 0 := by
      simpa [List.length_eq_zero] using hg
    simp [redirector, hsel, hlen]

/-- Witness for C4 amended: a concrete non-matching (uppercase) path is
rejected with `InvalidCountryCode`. -/
theorem C4_country_code_parsing_amended_witness :
    countrySelector demoUSStatus "/USA".data = SelResult.err SelErr.invalidCountryCode :=
  C4_country_code_parsing_amended.2.1 demoUSStatus "/USA".data (by decide)

/-- C5 counterexample: before any publish the store slot holds `none`
(`runStore []`), and a handler's load of it is the panic outcome — not a
well-defined empty snapshot answered with a 500. -/
theorem C5_load_before_publish_crashes :
    redirector globalSelector (runStore []) "GET" "/".data = HttpOut.crash
    ∧ HttpOut.crash ≠ HttpOut.serverError :=
  ⟨rfl, by decide⟩

/-- C5 amended: there is no "not ready" sentinel — before the first
successful store the slot holds nothing and a handler that loads it panics
on the type assertion; the newer variant instead withholds serving until the
one-shot `done` signal, which fires only after a snapshot has been stored,
so a served request never observes the pre-publish state. -/
theorem C5_store_read_amended (fs : List (Except FetchErr MirrorStatus)) :
    (∀ sel p, redirector sel none "GET" p = HttpOut.crash)
    ∧ ((∀ f ∈ fs, ∃ e, f = Except.error e) → runStore fs = none)
    ∧ (runDone fs = true → runStore fs ≠ none) := by
  refine ⟨fun sel p => rfl, ?_, ?_⟩
  · have hkeep : ∀ (l : List (Except FetchErr MirrorStatus)) (st : Option MirrorStatus),
        (∀ f ∈ l, ∃ e, f = Except.error e) → l.foldl storeStep st = st := by
      intro l
      induction l with
      | nil => intro st _; rfl
      | cons f l ih =>
        intro st hall
        obtain ⟨e, he⟩ := hall f (List.mem_cons_self f l)
        rw [List.foldl_cons, he]
        simp only [storeStep]
        exact ih st (fun g hg => hall g (List.mem_cons_of_mem f hg))
    exact hkeep fs none
  · have hdone : ∀ (l : List (Except FetchErr MirrorStatus)) (st : Option MirrorStatus)
        (d : Bool), (d = true → st ≠ none) →
        l.foldl doneStep d = true → l.foldl storeStep st ≠ none := by
      intro l
      induction l with
      | nil =>
        intro st d h hd
        exact h hd
      | cons f l ih =>
        intro st d h hd
        cases f with
        | error e =>
          simp only [List.foldl_cons, storeStep, doneStep] at *
          exact ih st d h hd
        | ok m =>
          simp only [List.foldl_cons, storeStep, doneStep] at *
          exact ih (some m) true (fun _ => by simp) hd
    exact hdone fs none false (by simp)

/-- Witness for C5 amended: a single failed fetch leaves the store
unpublished. -/
theorem C5_store_read_amended_witness :
    runStore [Except.error FetchErr.transport] = none := by
  have h := C5_store_read_amended [Except.error FetchErr.transport]
  refine h.2.1 ?_
  intro f hf
  simp only [List.mem_singleton] at hf
  exact ⟨FetchErr.transport, hf⟩

/-- C6 (a code bug shared by both variants): the loop body's `continue` on a
failed fetch jumps straight to the next iteration and skips the
`<-ticker.C` wait, so an error iteration performs no tick wait at all —
only successful iterations wait one interval before the next fetch. -/
theorem C6_error_skips_tick_wait :
    updateIterEvents (Except.error FetchErr.transport) = [LoopEvent.fetchAttempt]
    ∧ LoopEvent.waitTick ∉ updateIterEvents (Except.error FetchErr.transport)
    ∧ updateIterEvents (Except.ok demoPayload)
        = [LoopEvent.fetchAttempt, LoopEvent.storeSnapshot, LoopEvent.waitTick] :=
  ⟨rfl, by decide, rfl⟩

/-- C8: the scenario `GET /country/us/core/os/x86_64/foo.pkg` against a
snapshot whose US mirror is based at `https://mirror.example/archlinux/`:
the route prefix and the matched country prefix are stripped, the remaining
sub-path is joined onto the mirror base URL's path, and the handler responds
302 Found to the composed URL. -/
theorem C8_country_redirect_scenario :
    stripPrefixRoute "/country".data (redirector countrySelector (some demoUSStatus) "GET")
        "/country/us/core/os/x86_64/foo.pkg".data
      = HttpOut.redirect 302 "https://mirror.example/archlinux/core/os/x86_64/foo.pkg" := by
  decide

/-- C9: a failed fetch stores nothing — the previously published snapshot
stays in place — and the loop proceeds: the store contents after any run
with a failed iteration are those of the same run with that iteration
removed, so a failure only skips its own cycle and is never fatal. -/
theorem C9_failure_preserves_snapshot :
    (∀ (st : Option MirrorStatus) (e : FetchErr), storeStep st (Except.error e) = st)
    ∧ ∀ (pre post : List (Except FetchErr MirrorStatus)) (e : FetchErr),
        runStore (pre ++ Except.error e :: post) = runStore (pre ++ post) := by
  refine ⟨fun st e => rfl, ?_⟩
  intro pre post e
  simp [runStore, List.foldl_append, List.foldl_cons, storeStep]

end Kaleidoscope
